import Mathlib

/-
Verification of the ntfy-to-slack relay pipeline.

Shallow embedding of the Go sources:
  internal/app/app.go        (App.Run / App.runOnce reconnect loop)
  internal/ntfy/ntfy.go      (HTTPClient.Connect)
  internal/processor/processor.go
                             (MessageProcessor.ProcessStream / processMessage /
                              handleMessageEvent / createDefaultMessage)
  internal/slack/slack.go    (Sender.Send)
  internal/config postproc   (WebhookPostProcessor.Process, retry/backoff/size cap)
  internal/config            (ValidateDomain / ValidateTopic)

Strings are modelled as `List Char`; machine int64 as `Int`/`Nat` (the values
involved — status codes, retry counts, megabyte caps ≤ 100 — are far from
overflow).  HTTP traffic is modelled by passing the outcome of each network
call as an explicit argument, so each Go function becomes a pure Lean
function of its inputs and of the network outcomes it observes.
-/

namespace NtfySlack

/-! ## JSON decoding model (Go `encoding/json`, the subset the program uses)

The Go code calls `json.Unmarshal` into the structs `NtfyMessage`
(fields Id, Time, Event, Topic, Title, Message, no tags) and
`SlackMessage` (field Text, tag "text").  We model the parser for
JSON values, and Go's struct unmarshalling semantics: the whole input
must be one JSON value followed only by whitespace; the top level must
be an object (or null, which leaves the struct zero-valued); object
keys are matched to fields case-insensitively (ASCII); a `null` field
value leaves the field unchanged; a type mismatch is an unmarshal
error.  Modelling simplifications, none observable by the claims:
unicode case folding is restricted to ASCII, `\u` escapes do not
combine surrogate pairs, a leading-zero integer literal is accepted,
and int64 overflow of a `time` value is ignored. -/

def isWsChar (c : Char) : Bool :=
  c = ' ' || c = '\t' || c = '\n' || c = '\r'

/-- Drops leading JSON whitespace. -/
def skipWs : List Char → List Char
  | [] => []
  | c :: cs => if isWsChar c then skipWs cs else c :: cs

/-- Decodes a single-character JSON escape (after the backslash). -/
def escChar (c : Char) : Option Char :=
  if c = '"' then some '"'
  else if c = '\\' then some '\\'
  else if c = '/' then some '/'
  else if c = 'b' then some (Char.ofNat 8)
  else if c = 'f' then some (Char.ofNat 12)
  else if c = 'n' then some '\n'
  else if c = 'r' then some (Char.ofNat 13)
  else if c = 't' then some '\t'
  else none

def hexVal (c : Char) : Option Nat :=
  if '0' ≤ c ∧ c ≤ '9' then some (c.toNat - '0'.toNat)
  else if 'a' ≤ c ∧ c ≤ 'f' then some (c.toNat - 'a'.toNat + 10)
  else if 'A' ≤ c ∧ c ≤ 'F' then some (c.toNat - 'A'.toNat + 10)
  else none

/-- Parses the body of a JSON string after the opening quote; returns the
decoded content and the rest of the input after the closing quote. -/
def parseStringBody : List Char → Option (List Char × List Char)
  | [] => none
  | '"' :: rest => some ([], rest)
  | '\\' :: 'u' :: h1 :: h2 :: h3 :: h4 :: rest =>
    match hexVal h1, hexVal h2, hexVal h3, hexVal h4 with
    | some a, some b, some c, some d =>
      match parseStringBody rest with
      | some (s, r) => some (Char.ofNat (((a * 16 + b) * 16 + c) * 16 + d) :: s, r)
      | none => none
    | _, _, _, _ => none
  | '\\' :: e :: rest =>
    match escChar e with
    | some c =>
      match parseStringBody rest with
      | some (s, r) => some (c :: s, r)
      | none => none
    | none => none
  | c :: rest =>
    if c.toNat < 32 then none
    else
      match parseStringBody rest with
      | some (s, r) => some (c :: s, r)
      | none => none

/-- Parses an optional JSON fraction part; returns whether one was present. -/
def parseFrac : List Char → Option (Bool × List Char)
  | '.' :: rest =>
    match rest.span (·.isDigit) with
    | ([], _) => none
    | (_, r) => some (true, r)
  | s => some (false, s)

/-- Parses an optional JSON exponent part; returns whether one was present. -/
def parseExp : List Char → Option (Bool × List Char)
  | [] => some (false, [])
  | c :: rest =>
    if c = 'e' ∨ c = 'E' then
      let rest2 := match rest with
        | s :: r2 => if s = '+' ∨ s = '-' then r2 else s :: r2
        | [] => []
      match rest2.span (·.isDigit) with
      | ([], _) => none
      | (_, r) => some (true, r)
    else some (false, c :: rest)

/-- Parses a JSON number literal: sign flag, integer digits, whether the
literal is integral (no fraction, no exponent), and the rest. -/
def parseNumber (s : List Char) : Option (Bool × List Char × Bool × List Char) :=
  let p : Bool × List Char := match s with
    | '-' :: rest => (true, rest)
    | _ => (false, s)
  match p.2.span (·.isDigit) with
  | ([], _) => none
  | (ds, s2) =>
    match parseFrac s2 with
    | none => none
    | some (hf, s3) =>
      match parseExp s3 with
      | none => none
      | some (he, s4) => some (p.1, ds, !hf && !he, s4)

/-- JSON values, numbers kept syntactic (sign, integer digits, integral?). -/
inductive Json where
  | null
  | bool (b : Bool)
  | num (neg : Bool) (intDigits : List Char) (integral : Bool)
  | str (s : List Char)
  | arr (elems : List Json)
  | obj (fields : List (List Char × Json))

mutual

/-- Parses one JSON value (leading whitespace allowed); fuel-indexed, every
recursive call strictly consumes input so fuel = input length + 2 suffices. -/
def parseValue : Nat → List Char → Option (Json × List Char)
  | 0, _ => none
  | fuel + 1, s =>
    match skipWs s with
    | [] => none
    | c :: cs =>
      if c = '"' then
        match parseStringBody cs with
        | some (t, r) => some (.str t, r)
        | none => none
      else if c = '{' then
        match skipWs cs with
        | '}' :: r => some (.obj [], r)
        | cs2 => parseMembers fuel cs2 []
      else if c = '[' then
        match skipWs cs with
        | ']' :: r => some (.arr [], r)
        | cs2 => parseElems fuel cs2 []
      else if c = 't' then
        match cs with
        | 'r' :: 'u' :: 'e' :: r => some (.bool true, r)
        | _ => none
      else if c = 'f' then
        match cs with
        | 'a' :: 'l' :: 's' :: 'e' :: r => some (.bool false, r)
        | _ => none
      else if c = 'n' then
        match cs with
        | 'u' :: 'l' :: 'l' :: r => some (.null, r)
        | _ => none
      else
        match parseNumber (c :: cs) with
        | some (neg, ds, integral, r) => some (.num neg ds integral, r)
        | none => none

/-- Parses the members of an object after `{` (first key expected at the
head, whitespace already skipped), accumulating fields in document order. -/
def parseMembers : Nat → List Char → List (List Char × Json) →
    Option (Json × List Char)
  | 0, _, _ => none
  | fuel + 1, s, acc =>
    match s with
    | '"' :: cs =>
      match parseStringBody cs with
      | none => none
      | some (k, r1) =>
        match skipWs r1 with
        | ':' :: r2 =>
          match parseValue fuel r2 with
          | none => none
          | some (v, r3) =>
            match skipWs r3 with
            | ',' :: r4 => parseMembers fuel (skipWs r4) (acc ++ [(k, v)])
            | '}' :: r4 => some (.obj (acc ++ [(k, v)]), r4)
            | _ => none
        | _ => none
    | _ => none

/-- Parses the elements of an array after `[` (non-empty case). -/
def parseElems : Nat → List Char → List Json → Option (Json × List Char)
  | 0, _, _ => none
  | fuel + 1, s, acc =>
    match parseValue fuel s with
    | none => none
    | some (v, r) =>
      match skipWs r with
      | ',' :: r2 => parseElems fuel (skipWs r2) (acc ++ [v])
      | ']' :: r2 => some (.arr (acc ++ [v]), r2)
      | _ => none

end

/-- ASCII-lowercases a key for Go's case-insensitive field matching. -/
def toLowerList (s : List Char) : List Char := s.map Char.toLower

def digitsToNat : List Char → Nat → Nat
  | [], acc => acc
  | c :: cs, acc => digitsToNat cs (acc * 10 + (c.toNat - 48))

def jsonIntValue (neg : Bool) (ds : List Char) : Int :=
  if neg then -(digitsToNat ds 0 : Int) else (digitsToNat ds 0 : Int)

/-- SlackMessage struct of the Go code: `{ Text string `json:"text"` }`. -/
structure SlackMessage where
  text : List Char
deriving DecidableEq

/-- Folds the parsed object fields into a SlackMessage's Text, mirroring
struct unmarshalling: case-insensitive key match, later fields win,
`null` leaves the field, a non-string value is a type error. -/
def decodeSlackFields : List (List Char × Json) → List Char → Option (List Char)
  | [], acc => some acc
  | (k, v) :: rest, acc =>
    if toLowerList k = ['t', 'e', 'x', 't'] then
      match v with
      | .str t => decodeSlackFields rest t
      | .null => decodeSlackFields rest acc
      | _ => none
    else decodeSlackFields rest acc

/-- Models `json.Unmarshal(body, &slackMsg)`: `some text` when unmarshalling
succeeds (Text defaults to the empty string), `none` on any decode error. -/
def unmarshalSlack (s : List Char) : Option (List Char) :=
  match parseValue (s.length + 2) s with
  | none => none
  | some (v, rest) =>
    if skipWs rest = [] then
      match v with
      | .null => some []
      | .obj fields => decodeSlackFields fields []
      | _ => none
    else none

/-- NtfyMessage struct of the Go code (Id, Time, Event, Topic, Title,
Message; no json tags, so keys are matched case-insensitively). -/
structure NtfyMessage where
  id : List Char
  time : Int
  event : List Char
  topic : List Char
  title : List Char
  message : List Char
deriving DecidableEq

/-- Zero value of the NtfyMessage struct. -/
def emptyNtfy : NtfyMessage := ⟨[], 0, [], [], [], []⟩

/-- Applies one parsed object field to the struct, mirroring Go: string
fields accept strings (or null = unchanged), Time accepts an integral
number (or null), unknown keys are ignored, anything else is an error. -/
def setNtfyField (m : NtfyMessage) (k : List Char) (v : Json) :
    Option NtfyMessage :=
  let lk := toLowerList k
  if lk = ['i', 'd'] then
    match v with
    | .str s => some { m with id := s }
    | .null => some m
    | _ => none
  else if lk = ['t', 'i', 'm', 'e'] then
    match v with
    | .num neg ds integral =>
      if integral then some { m with time := jsonIntValue neg ds } else none
    | .null => some m
    | _ => none
  else if lk = ['e', 'v', 'e', 'n', 't'] then
    match v with
    | .str s => some { m with event := s }
    | .null => some m
    | _ => none
  else if lk = ['t', 'o', 'p', 'i', 'c'] then
    match v with
    | .str s => some { m with topic := s }
    | .null => some m
    | _ => none
  else if lk = ['t', 'i', 't', 'l', 'e'] then
    match v with
    | .str s => some { m with title := s }
    | .null => some m
    | _ => none
  else if lk = ['m', 'e', 's', 's', 'a', 'g', 'e'] then
    match v with
    | .str s => some { m with message := s }
    | .null => some m
    | _ => none
  else some m

def decodeNtfyFields : List (List Char × Json) → NtfyMessage →
    Option NtfyMessage
  | [], m => some m
  | (k, v) :: rest, m =>
    match setNtfyField m k v with
    | some m2 => decodeNtfyFields rest m2
    | none => none

/-- Models `json.Unmarshal([]byte(line), &msg)` for a NtfyMessage. -/
def unmarshalNtfy (s : List Char) : Option NtfyMessage :=
  match parseValue (s.length + 2) s with
  | none => none
  | some (v, rest) =>
    if skipWs rest = [] then
      match v with
      | .null => some emptyNtfy
      | .obj fields => decodeNtfyFields fields emptyNtfy
      | _ => none
    else none

/-! ## WebhookPostProcessor.Process (internal/config, retry loop)

The network is modelled by a function from attempt index to the outcome
the Go code observes at that attempt: a transport error from
`w.client.Do`, or a response with a status, a body, and whether
`io.ReadAll` of the (size-limited) 2xx body succeeds.  The embedding
additionally returns the number of HTTP calls made and the list of
backoff sleeps (in seconds, in order), which the Go code performs with
`time.Sleep`. -/

inductive HttpAttempt where
  | transportErr
  | response (status : Nat) (body : List Char) (readOk : Bool)

/-- Failures the retry loop can record in `lastErr`. -/
inductive WebhookFailure where
  | requestFailed
  | badStatus (status : Nat) (bodySnippet : List Char)
  | readFailed
deriving DecidableEq

/-- Errors returned by Process: a non-retryable 4xx is returned as the bare
`lastErr`; exhaustion wraps the last failure with `maxRetries + 1`. -/
inductive ProcessErrorModel where
  | immediate (f : WebhookFailure)
  | afterRetries (count : Nat) (last : Option WebhookFailure)
deriving DecidableEq

inductive ProcessOutcome where
  | ok (msg : SlackMessage)
  | err (e : ProcessErrorModel)
deriving DecidableEq

structure WebhookRun where
  outcome : ProcessOutcome
  calls : Nat
  sleeps : List Nat
deriving DecidableEq

/-- Exponential backoff before attempt `n ≥ 1`: `min(2^n, 30)` seconds. -/
def backoffSeconds (attempt : Nat) : Nat := min (2 ^ attempt) 30

/-- One execution of the `for attempt := 0; attempt <= maxRetries` loop of
WebhookPostProcessor.Process, from attempt index `attempt` with
`remaining` iterations left. -/
def webhookLoop (maxRetries maxBytes : Nat) (att : Nat → HttpAttempt) :
    Nat → Nat → Option WebhookFailure → Nat → List Nat → WebhookRun
  | _, 0, lastErr, calls, sleeps =>
    ⟨.err (.afterRetries (maxRetries + 1) lastErr), calls, sleeps⟩
  | attempt, remaining + 1, _, calls, sleeps =>
    let sleeps1 := if attempt > 0 then sleeps ++ [backoffSeconds attempt] else sleeps
    match att attempt with
    | .transportErr =>
      webhookLoop maxRetries maxBytes att (attempt + 1) remaining
        (some .requestFailed) (calls + 1) sleeps1
    | .response status body readOk =>
      if status < 200 ∨ status ≥ 300 then
        let e := WebhookFailure.badStatus status (body.take 1024)
        if 400 ≤ status ∧ status < 500 then
          ⟨.err (.immediate e), calls + 1, sleeps1⟩
        else
          webhookLoop maxRetries maxBytes att (attempt + 1) remaining
            (some e) (calls + 1) sleeps1
      else
        if readOk then
          let truncated := body.take maxBytes
          match unmarshalSlack truncated with
          | some t => ⟨.ok ⟨t⟩, calls + 1, sleeps1⟩
          | none => ⟨.ok ⟨truncated⟩, calls + 1, sleeps1⟩
        else
          webhookLoop maxRetries maxBytes att (attempt + 1) remaining
            (some .readFailed) (calls + 1) sleeps1

/-- WebhookPostProcessor.Process for a processor configured with
`maxRetries` and `maxResponseSizeMB` (the JSON marshalling of the
outbound NtfyMessage never fails for this struct, so it is elided). -/
def webhookProcess (maxRetries maxRespMB : Nat) (att : Nat → HttpAttempt) :
    WebhookRun :=
  webhookLoop maxRetries (maxRespMB * 1024 * 1024) att 0 (maxRetries + 1) none 0 []

/-! ## MessageProcessor (internal/processor/processor.go) -/

/-- Polymorphic post-processor: `Process` returns a SlackMessage or an
error (modelled as an error string). -/
def PostProc : Type := NtfyMessage → Except (List Char) SlackMessage

/-- createDefaultMessage: `"**" + Title + "**: " + Message` when the title
is non-empty, otherwise the bare message. -/
def createDefaultMessage (m : NtfyMessage) : SlackMessage :=
  if m.title ≠ [] then
    ⟨['*', '*'] ++ m.title ++ ['*', '*', ':', ' '] ++ m.message⟩
  else
    ⟨m.message⟩

/-- handleMessageEvent: the message that is handed to `sender.Send` — the
post-processor's output, falling back to the default format when the
post-processor fails (delivery is attempted in every case). -/
def handleMessageEvent (post : Option PostProc) (m : NtfyMessage) :
    SlackMessage :=
  match post with
  | some p =>
    match p m with
    | .ok sm => sm
    | .error _ => createDefaultMessage m
  | none => createDefaultMessage m

/-- processMessage: which events lead to a delivery. Events of kind open /
keepalive / unknown are only logged (`none`); message-kind events are
handled and delivered (`some`). -/
def processMessage (post : Option PostProc) (m : NtfyMessage) :
    Option SlackMessage :=
  if m.event = ['o', 'p', 'e', 'n'] then none
  else if m.event = ['k', 'e', 'e', 'p', 'a', 'l', 'i', 'v', 'e'] then none
  else if m.event = ['m', 'e', 's', 's', 'a', 'g', 'e'] then
    some (handleMessageEvent post m)
  else none

/-- ProcessStream over the scanner's lines: the sequence of messages handed
to the Delivery Sink, in order. A line that fails to unmarshal is logged
and skipped; a Send error is logged and does not stop the loop. -/
def processStream (post : Option PostProc) : List (List Char) → List SlackMessage
  | [] => []
  | line :: rest =>
    match unmarshalNtfy line with
    | none => processStream post rest
    | some m =>
      match processMessage post m with
      | none => processStream post rest
      | some sm => sm :: processStream post rest

/-! ## Sender.Send (internal/slack/slack.go) -/

inductive SendOutcome where
  | transportErr
  | response (status : Nat) (bodyRead : Except Unit (List Char))

inductive SendError where
  | nilMessage
  | transportErr
  | bodyReadErr
  | badStatus (status : Nat)
deriving DecidableEq

/-- Sender.Send: nil check, marshal (never fails for this struct), POST,
read the response body to completion (returning its error if any), then
classify by status: ≥ 400 is an error. -/
def sendToSlack (msg : Option SlackMessage) (outcome : SendOutcome) :
    Except SendError Unit :=
  match msg with
  | none => .error .nilMessage
  | some _ =>
    match outcome with
    | .transportErr => .error .transportErr
    | .response status bodyRead =>
      match bodyRead with
      | .error _ => .error .bodyReadErr
      | .ok _ => if status ≥ 400 then .error (.badStatus status) else .ok ()

/-! ## HTTPClient.Connect (internal/ntfy/ntfy.go) and validators -/

def isTopicChar (c : Char) : Bool := c.isAlphanum || c = '_' || c = '-'

/-- ValidateTopic: the regex `^[a-zA-Z0-9_-]{1,64}$`. -/
def validateTopic (t : List Char) : Bool :=
  decide (1 ≤ t.length) && decide (t.length ≤ 64) && t.all isTopicChar

def isLabelChar (c : Char) : Bool := c.isAlphanum || c = '-'

/-- First DNS label: `[a-zA-Z0-9]([a-zA-Z0-9-]{0,61}[a-zA-Z0-9])?`. -/
def firstLabelOk (l : List Char) : Bool :=
  match l with
  | [] => false
  | [c] => c.isAlphanum
  | c :: rest =>
    c.isAlphanum &&
      (match rest.getLast? with
       | some d => d.isAlphanum
       | none => false) &&
      rest.dropLast.all isLabelChar && decide (l.length ≤ 63)

/-- One TLD-style group after a dot: `[a-zA-Z]{2,}`. -/
def tldOk (t : List Char) : Bool := decide (2 ≤ t.length) && t.all Char.isAlpha

/-- ValidateDomain: the regex
`^[a-zA-Z0-9]([a-zA-Z0-9-]{0,61}[a-zA-Z0-9])?(?:\.[a-zA-Z]{2,})+$`,
expressed by splitting on the dots. -/
def validateDomain (d : List Char) : Bool :=
  match d.splitOn '.' with
  | [] => false
  | first :: tlds => firstLabelOk first && !tlds.isEmpty && tlds.all tldOk

inductive ConnectOutcome where
  | transportErr
  | response (status : Nat) (body : List Char)

inductive ConnectError where
  | invalidDomain
  | invalidTopic
  | transportErr
  | badStatus (status : Nat)
deriving DecidableEq

/-- HTTPClient.Connect: validates domain then topic (before any network
call — the `outcome` argument is not consulted on those paths), then
issues the GET; a transport error or a status different from 200
(`http.StatusOK`) is an error, a 200 yields the body stream. -/
def connect (domain topic : List Char) (outcome : ConnectOutcome) :
    Except ConnectError (List Char) :=
  if !validateDomain domain then .error .invalidDomain
  else if !validateTopic topic then .error .invalidTopic
  else
    match outcome with
    | .transportErr => .error .transportErr
    | .response status body =>
      if status ≠ 200 then .error (.badStatus status) else .ok body

/-! ## App.Run / App.runOnce (internal/app/app.go)

Each loop iteration observes one `RunOnceOutcome`: the connector fails, or
it connects and the stream later ends — cleanly (scanner.Err() == nil)
or with a read error.  Between iterations the code sleeps 30 seconds, so
the iteration count in the result is also the number of 30-second
reconnect sleeps taken. -/

inductive StreamEnd where
  | eof
  | readErr
deriving DecidableEq

inductive RunOnceOutcome where
  | connectFail
  | connected (ending : StreamEnd)
deriving DecidableEq

inductive RunError where
  | connectErr
  | streamErr
deriving DecidableEq

/-- App.runOnce: Connect failure is an error; otherwise ProcessStream runs
and returns scanner.Err(), which is nil exactly on a clean stream end. -/
def runOnce : RunOnceOutcome → Option RunError
  | .connectFail => some .connectErr
  | .connected .eof => none
  | .connected .readErr => some .streamErr

inductive RunResult where
  | returned (iterations : Nat) (e : RunError)
  | running (iterations : Nat)
deriving DecidableEq

/-- App.Run observed for `fuel` iterations starting at iteration `i`:
`returned i e` means Run returned error `e` during iteration `i`;
`running j` means the loop is still going at iteration `j`. -/
def appRun (outcomes : Nat → RunOnceOutcome) : Nat → Nat → RunResult
  | 0, i => .running i
  | fuel + 1, i =>
    match runOnce (outcomes i) with
    | some e => .returned i e
    | none => appRun outcomes fuel (i + 1)

/-! ## Concrete inputs used by counterexamples -/

/-- Truncation boundary witness: the 11-character JSON object text. -/
def c4Header : List Char := ['{', '"', 't', 'e', 'x', 't', '"', ':', '"', '"', '}']

/-- Padding bringing the prefix to exactly 1 MB = 1048576 characters. -/
def c4Pad : List Char := List.replicate 1048565 ' '

/-- Response body of size 1 MB + 1: its 1 MB truncation is valid JSON. -/
def c4Body : List Char := (c4Header ++ c4Pad) ++ ['x']

/-! # Theorems -/

/-- Helper: one unfolding of the retry loop (non-zero remaining). -/
theorem webhookLoop_succ (mr mb : Nat) (att : Nat → HttpAttempt)
    (a r : Nat) (le : Option WebhookFailure) (c : Nat) (sl : List Nat) :
    webhookLoop mr mb att a (r + 1) le c sl =
      (let sleeps1 := if a > 0 then sl ++ [backoffSeconds a] else sl
       match att a with
       | .transportErr =>
         webhookLoop mr mb att (a + 1) r (some .requestFailed) (c + 1) sleeps1
       | .response status body readOk =>
         if status < 200 ∨ status ≥ 300 then
           let e := WebhookFailure.badStatus status (body.take 1024)
           if 400 ≤ status ∧ status < 500 then
             ⟨.err (.immediate e), c + 1, sleeps1⟩
           else
             webhookLoop mr mb att (a + 1) r (some e) (c + 1) sleeps1
         else
           if readOk then
             let truncated := body.take mb
             match unmarshalSlack truncated with
             | some t => ⟨.ok ⟨t⟩, c + 1, sleeps1⟩
             | none => ⟨.ok ⟨truncated⟩, c + 1, sleeps1⟩
           else
             webhookLoop mr mb att (a + 1) r (some .readFailed) (c + 1) sleeps1) := by
  rfl

/-- Claim C3: for every WebhookTransform with any retry count R ≥ 0, if the
POST attempt receives a response with status in [400, 499], Process
returns a ProcessError immediately after exactly 1 HTTP call, with no
further retry attempt and no backoff sleep. -/
theorem C3_client_error_no_retry (R M : Nat) (att : Nat → HttpAttempt)
    (s : Nat) (body : List Char) (readOk : Bool)
    (h0 : att 0 = .response s body readOk) (h4 : 400 ≤ s) (h5 : s < 500) :
    webhookProcess R M att =
      ⟨.err (.immediate (.badStatus s (body.take 1024))), 1, []⟩ := by
  unfold webhookProcess
  rw [webhookLoop_succ]
  simp only [h0, gt_iff_lt, Nat.lt_irrefl, if_false]
  have hcond : s < 200 ∨ s ≥ 300 := Or.inr (by omega)
  rw [if_pos hcond, if_pos ⟨h4, h5⟩]

/-- Witness for C3 at R = 5, M = 1, a constant 404 response. -/
theorem C3_client_error_no_retry_witness :
    webhookProcess 5 1 (fun _ => .response 404 ['x'] true) =
      ⟨.err (.immediate (.badStatus 404 ['x'])), 1, []⟩ :=
  C3_client_error_no_retry 5 1 _ 404 ['x'] true rfl (by decide) (by decide)

/-- Claim C6: for every message-kind event, whichever post-processor is
configured, if its Process returns an error then the pipeline falls back
to the default formatter and still delivers the resulting message: a
post-processing failure never suppresses delivery of that event. -/
theorem C6_postprocess_failure_falls_back (p : PostProc) (m : NtfyMessage)
    (e : List Char) (hm : m.event = ['m', 'e', 's', 's', 'a', 'g', 'e'])
    (hp : p m = .error e) :
    processMessage (some p) m = some (createDefaultMessage m) := by
  simp [processMessage, hm, handleMessageEvent, hp]

/-- Witness for C6: a post-processor that always fails, on a concrete
message-kind event. -/
theorem C6_postprocess_failure_falls_back_witness :
    processMessage (some (fun _ => .error ['b', 'a', 'd']))
        { emptyNtfy with event := ['m', 'e', 's', 's', 'a', 'g', 'e'],
                         title := ['T'], message := ['B'] } =
      some (createDefaultMessage
        { emptyNtfy with event := ['m', 'e', 's', 's', 'a', 'g', 'e'],
                         title := ['T'], message := ['B'] }) :=
  C6_postprocess_failure_falls_back _ _ ['b', 'a', 'd'] rfl rfl

/-- Claim C7: with no post-processor the delivered text is
`"**" + title + "**: " + body` when the title is non-empty and exactly the
body when the title is empty; in particular the event
`{"event":"message","title":"","message":"ping"}` yields exactly `"ping"`
and `{"event":"message","title":"Alert","message":"Down"}` yields exactly
`"**Alert**: Down"`. -/
theorem C7_default_format :
    (∀ m : NtfyMessage, m.title ≠ [] →
      (createDefaultMessage m).text =
        ['*', '*'] ++ m.title ++ ['*', '*', ':', ' '] ++ m.message) ∧
    (∀ m : NtfyMessage, m.title = [] →
      (createDefaultMessage m).text = m.message) ∧
    processStream none
        [("\x7b\"event\":\"message\",\"title\":\"\",\"message\":\"ping\"\x7d").toList] =
      [⟨['p', 'i', 'n', 'g']⟩] ∧
    processStream none
        [("\x7b\"event\":\"message\",\"title\":\"Alert\",\"message\":\"Down\"\x7d").toList] =
      [⟨("**Alert**: Down").toList⟩] := by
  refine ⟨?_, ?_, ?_, ?_⟩
  · intro m hm; simp [createDefaultMessage, hm]
  · intro m hm; simp [createDefaultMessage, hm]
  · decide
  · decide

/-- Witness for C7 at a concrete titled message. -/
theorem C7_default_format_witness :
    (createDefaultMessage { emptyNtfy with title := ['A'], message := ['B'] }).text =
      ['*', '*'] ++ ['A'] ++ ['*', '*', ':', ' '] ++ ['B'] :=
  C7_default_format.1 { emptyNtfy with title := ['A'], message := ['B'] } (by decide)

/-- Counterexample to claim C8: the claim says Connect succeeds for every
status in [200, 299], but the code requires status exactly 200
(`http.StatusOK`): a 204 response yields a ConnectionError. -/
theorem C8_counterexample :
    connect ("ntfy.sh").toList ("alerts").toList (.response 204 ['z']) =
        .error (.badStatus 204) ∧
      200 ≤ 204 ∧ 204 ≤ 299 := by
  refine ⟨rfl, by decide, by decide⟩

/-- Claim C8 as amended: with a valid domain and topic, connect returns a
ConnectionError exactly when a transport-level failure occurs or the HTTP
status differs from 200; a status-200 response succeeds and returns the
open byte stream. -/
theorem C8_connect_amended (d t b : List Char) (s : Nat)
    (hd : validateDomain d = true) (ht : validateTopic t = true) :
    connect d t (.response 200 b) = .ok b ∧
      (s ≠ 200 → connect d t (.response s b) = .error (.badStatus s)) ∧
      connect d t .transportErr = .error .transportErr := by
  refine ⟨?_, ?_, ?_⟩
  · simp [connect, hd, ht]
  · intro hs; simp [connect, hd, ht, hs]
  · simp [connect, hd, ht]

/-- Witness for C8 amended at domain "ntfy.sh", topic "alerts", status 503. -/
theorem C8_connect_amended_witness :
    connect ("ntfy.sh").toList ("alerts").toList (.response 200 ['z']) = .ok ['z'] ∧
      (503 ≠ 200 →
        connect ("ntfy.sh").toList ("alerts").toList (.response 503 ['z']) =
          .error (.badStatus 503)) ∧
      connect ("ntfy.sh").toList ("alerts").toList .transportErr =
        .error .transportErr :=
  C8_connect_amended _ _ ['z'] 503 (by decide) (by decide)

/-- Counterexample to claim C9: the claim says reading the response body
never changes the status-based classification, but when reading the body
fails the code returns that error even though the status 200 is < 400. -/
theorem C9_counterexample :
    sendToSlack (some ⟨['h', 'i']⟩) (.response 200 (.error ())) =
        .error .bodyReadErr ∧
      200 < 400 := by
  exact ⟨rfl, by decide⟩

/-- Claim C9 as amended: for a non-nil message, when the response body is
read successfully the outcome is classified solely by the status code —
success iff status < 400, DeliveryError carrying the status iff ≥ 400 —
and the body contents never affect it; a failed body read, however, is
returned as an error regardless of the status. -/
theorem C9_send_amended (m : SlackMessage) (s : Nat) (b b' : List Char) :
    (s < 400 → sendToSlack (some m) (.response s (.ok b)) = .ok ()) ∧
      (400 ≤ s → sendToSlack (some m) (.response s (.ok b)) =
        .error (.badStatus s)) ∧
      sendToSlack (some m) (.response s (.ok b)) =
        sendToSlack (some m) (.response s (.ok b')) ∧
      sendToSlack (some m) (.response s (.error ())) = .error .bodyReadErr := by
  refine ⟨?_, ?_, rfl, rfl⟩
  · intro h; simp [sendToSlack, Nat.not_le.mpr h]
  · intro h; simp [sendToSlack, h]

/-- Witness for C9 amended at status 200 and status-checking inputs. -/
theorem C9_send_amended_witness :
    (200 < 400 →
      sendToSlack (some ⟨['h', 'i']⟩) (.response 200 (.ok ['o', 'k'])) = .ok ()) ∧
      (400 ≤ 200 →
        sendToSlack (some ⟨['h', 'i']⟩) (.response 200 (.ok ['o', 'k'])) =
          .error (.badStatus 200)) ∧
      sendToSlack (some ⟨['h', 'i']⟩) (.response 200 (.ok ['o', 'k'])) =
        sendToSlack (some ⟨['h', 'i']⟩) (.response 200 (.ok [])) ∧
      sendToSlack (some ⟨['h', 'i']⟩) (.response 200 (.error ())) =
        .error .bodyReadErr :=
  C9_send_amended ⟨['h', 'i']⟩ 200 ['o', 'k'] []

/-- Claim C10: on a 2xx response whose (size-capped) body unmarshals as the
`{text: string}` shape without setting the text field, Process returns the
empty text rather than the raw body; the verbatim plain-text fallback
applies exactly when JSON unmarshalling fails. -/
theorem C10_json_empty_text (M R : Nat) (att : Nat → HttpAttempt)
    (body : List Char) (t : List Char)
    (h0 : att 0 = .response 200 body true) :
    (unmarshalSlack (body.take (M * 1024 * 1024)) = some t →
      (webhookProcess R M att).outcome = .ok ⟨t⟩) ∧
    (unmarshalSlack (body.take (M * 1024 * 1024)) = none →
      (webhookProcess R M att).outcome = .ok ⟨body.take (M * 1024 * 1024)⟩) := by
  constructor <;> intro hu <;>
    · unfold webhookProcess
      rw [webhookLoop_succ]
      simp [h0, hu]

/-- Witness for C10: the bodies `{"other":1}` (valid JSON, text unset → empty
text) and `hello` (invalid JSON → verbatim fallback), with M = 1, R = 0. -/
theorem C10_json_empty_text_witness :
    (webhookProcess 0 1 (fun _ => .response 200 ("\x7b\"other\":1\x7d").toList true)).outcome =
        .ok ⟨[]⟩ ∧
      (webhookProcess 0 1 (fun _ => .response 200 ("hello").toList true)).outcome =
        .ok ⟨("hello").toList.take (1 * 1024 * 1024)⟩ :=
  ⟨(C10_json_empty_text 1 0 _ _ [] rfl).1 (by decide),
   (C10_json_empty_text 1 0 _ _ [] rfl).2 (by decide)⟩

/-- Helper: under all-500 responses the loop always exhausts its attempts,
recording the last attempt's failure and one call per iteration. -/
theorem webhookLoop_all500 (R M : Nat) (att : Nat → HttpAttempt)
    (body : Nat → List Char) (h : ∀ n, att n = .response 500 (body n) true) :
    ∀ remaining attempt (lastErr : Option WebhookFailure) (calls : Nat)
      (sleeps : List Nat),
      (webhookLoop R M att attempt (remaining + 1) lastErr calls sleeps).outcome =
          .err (.afterRetries (R + 1)
            (some (.badStatus 500 ((body (attempt + remaining)).take 1024)))) ∧
        (webhookLoop R M att attempt (remaining + 1) lastErr calls sleeps).calls =
          calls + remaining + 1 := by
  intro remaining
  induction remaining with
  | zero =>
    intro attempt lastErr calls sleeps
    rw [webhookLoop_succ]
    simp [h attempt, webhookLoop]
  | succ r ih =>
    intro attempt lastErr calls sleeps
    rw [webhookLoop_succ]
    simp only [h attempt]
    have hcond : (500 : Nat) < 200 ∨ (500 : Nat) ≥ 300 := by omega
    rw [if_pos hcond, if_neg (by omega)]
    have := ih (attempt + 1)
      (some (.badStatus 500 ((body attempt).take 1024))) (calls + 1)
      (if attempt > 0 then sleeps ++ [backoffSeconds attempt] else sleeps)
    refine ⟨?_, ?_⟩
    · rw [this.1]
      have : attempt + 1 + r = attempt + (r + 1) := by omega
      rw [this]
    · rw [this.2]
      omega

/-- Claim C2: for every WebhookTransform with maxRetries = R, if every POST
attempt receives an HTTP 500 response then Process makes exactly R + 1
HTTP calls and returns a ProcessError wrapping the last encountered
failure, annotated with the total attempt count R + 1. -/
theorem C2_all500_exhausts_retries (R M : Nat) (att : Nat → HttpAttempt)
    (body : Nat → List Char) (h : ∀ n, att n = .response 500 (body n) true) :
    (webhookProcess R M att).calls = R + 1 ∧
      (webhookProcess R M att).outcome =
        .err (.afterRetries (R + 1)
          (some (.badStatus 500 ((body R).take 1024)))) := by
  unfold webhookProcess
  have := webhookLoop_all500 R (M * 1024 * 1024) att body h R 0 none 0 []
  refine ⟨by rw [this.2]; omega, ?_⟩
  rw [this.1]
  simp

/-- Witness for C2 at R = 2, M = 1, every attempt answering 500. -/
theorem C2_all500_exhausts_retries_witness :
    (webhookProcess 2 1 (fun _ => .response 500 ['e'] true)).calls = 2 + 1 ∧
      (webhookProcess 2 1 (fun _ => .response 500 ['e'] true)).outcome =
        .err (.afterRetries (2 + 1) (some (.badStatus 500 (['e'].take 1024)))) :=
  C2_all500_exhausts_retries 2 1 _ (fun _ => ['e']) (fun _ => rfl)

/-- Counterexample to claim C1: the claim says the supervisor loop has no
terminal state — a connector failure causes a Connecting → Connecting
transition after the 30-second delay and App.Run never returns — but in
the code a connector failure makes App.Run return the error at once,
without any retry iteration or sleep. -/
theorem C1_counterexample :
    appRun (fun _ => .connectFail) 1 0 = .returned 0 .connectErr := by
  decide

/-- Claim C1 as amended: the loop keeps reconnecting (one 30-second sleep
per iteration) only across clean stream closures: while every iteration's
stream closes cleanly the loop never returns, and the first iteration
whose connector fails or whose stream ends in a read error makes App.Run
return that error immediately, terminating the loop. -/
theorem C1_run_amended :
    (∀ (outcomes : Nat → RunOnceOutcome) (fuel i : Nat),
      (∀ k, outcomes k = .connected .eof) →
      appRun outcomes fuel i = .running (i + fuel)) ∧
    (∀ (outcomes : Nat → RunOnceOutcome) (fuel i : Nat) (e : RunError),
      runOnce (outcomes i) = some e →
      appRun outcomes (fuel + 1) i = .returned i e) := by
  constructor
  · intro outcomes fuel
    induction fuel with
    | zero => intro i _; simp [appRun]
    | succ f ih =>
      intro i h
      have : appRun outcomes (f + 1) i = appRun outcomes f (i + 1) := by
        simp [appRun, h i, runOnce]
      rw [this, ih (i + 1) h]
      congr 1
      omega
  · intro outcomes fuel i e h
    simp [appRun, h]

/-- Witness for C1 amended: an all-clean run still looping after three
iterations, and a run whose first stream ends in a read error returning. -/
theorem C1_run_amended_witness :
    appRun (fun _ => .connected .eof) 3 0 = .running (0 + 3) ∧
      appRun (fun _ => .connected .readErr) (2 + 1) 0 =
        .returned 0 .streamErr :=
  ⟨C1_run_amended.1 (fun _ => .connected .eof) 3 0 (fun _ => rfl),
   C1_run_amended.2 (fun _ => .connected .readErr) 2 0 .streamErr rfl⟩

/-- Helper: processMessage forwards exactly the message-kind events. -/
theorem processMessage_eq (post : Option PostProc) (m : NtfyMessage) :
    processMessage post m =
      if m.event = ['m', 'e', 's', 's', 'a', 'g', 'e'] then
        some (handleMessageEvent post m)
      else none := by
  unfold processMessage
  split_ifs with h1 h2 h3 h4 <;> simp_all

/-- Claim C5: over any interleaving of malformed and valid JSON lines, the
parser skips exactly the malformed lines (never terminating the stream)
and forwards every valid event of kind "message" to the post-processing /
delivery stage in arrival order; events of other kinds are never
forwarded. -/
theorem C5_parser_skips_and_forwards (post : Option PostProc)
    (lines : List (List Char)) :
    processStream post lines =
      (((lines.filterMap unmarshalNtfy).filter
          (fun m => m.event = ['m', 'e', 's', 's', 'a', 'g', 'e'])).map
        (handleMessageEvent post)) := by
  induction lines with
  | nil => simp [processStream]
  | cons line rest ih =>
    cases hu : unmarshalNtfy line with
    | none => simp [processStream, hu, ih]
    | some m =>
      by_cases hm : m.event = ['m', 'e', 's', 's', 'a', 'g', 'e'] <;>
        simp [processStream, hu, processMessage_eq, hm, ih]

/-- Helper: one 2xx first attempt with a successful body read returns after
exactly one call, with the unmarshal-or-verbatim text of the capped body. -/
theorem webhookProcess_2xx (M R : Nat) (att : Nat → HttpAttempt)
    (s : Nat) (body : List Char)
    (h0 : att 0 = .response s body true) (h2 : 200 ≤ s) (h3 : s < 300) :
    webhookProcess R M att =
      ⟨match unmarshalSlack (body.take (M * 1024 * 1024)) with
        | some t => .ok ⟨t⟩
        | none => .ok ⟨body.take (M * 1024 * 1024)⟩, 1, []⟩ := by
  unfold webhookProcess
  rw [webhookLoop_succ]
  simp only [h0, gt_iff_lt, Nat.lt_irrefl, if_false]
  rw [if_neg (by omega)]
  simp only [if_true]
  split <;> rfl

/-- Helper: the parser on the exact object text `{"text":""}` followed by
any remainder, with fuel written in the `k + 3` shape it needs. -/
theorem parse_c4 (k : Nat) (r : List Char) :
    parseValue (k + 3)
        ('{' :: '"' :: 't' :: 'e' :: 'x' :: 't' :: '"' :: ':' :: '"' :: '"' ::
          '}' :: r) =
      some (.obj [(['t', 'e', 'x', 't'], Json.str [])], r) := by
  rfl

/-- Helper: whitespace skipping consumes a run of spaces entirely. -/
theorem skipWs_replicate_space (n : Nat) :
    skipWs (List.replicate n ' ') = [] := by
  induction n with
  | zero => rfl
  | succ m ih => simpa [List.replicate_succ, skipWs, isWsChar] using ih

/-- Helper: the 1 MB truncation of c4Body — `{"text":""}` padded with
trailing spaces — is accepted by the unmarshaller with an empty text. -/
theorem unmarshal_c4pad (n : Nat) :
    unmarshalSlack (c4Header ++ List.replicate n ' ') = some [] := by
  have hform : c4Header ++ List.replicate n ' ' =
      '{' :: '"' :: 't' :: 'e' :: 'x' :: 't' :: '"' :: ':' :: '"' :: '"' ::
        '}' :: List.replicate n ' ' := by
    simp [c4Header]
  have hlen : ('{' :: '"' :: 't' :: 'e' :: 'x' :: 't' :: '"' :: ':' :: '"' ::
        '"' :: '}' :: List.replicate n ' ').length + 2 = (n + 10) + 3 := by
    simp
  unfold unmarshalSlack
  rw [hform, hlen, parse_c4]
  simp [skipWs_replicate_space, decodeSlackFields, toLowerList]

/-- Helper: the padded prefix is exactly 1048576 characters long. -/
theorem c4_len : (c4Header ++ c4Pad).length = 1048576 := by
  rw [List.length_append]
  rw [show c4Header.length = 11 from rfl]
  rw [show c4Pad.length = 1048565 from List.length_replicate 1048565 ' ']

/-- Helper: taking the cap from c4Body yields exactly its 1 MB prefix. -/
theorem c4_take : List.take 1048576 c4Body = c4Header ++ c4Pad := by
  unfold c4Body
  exact List.take_left' c4_len

/-- Counterexample to claim C4: with maxResponseSizeMB = 1 and a 2xx body of
1048577 bytes whose 1 MB truncation is the valid JSON `{"text":""}` padded
with spaces, Process succeeds but the returned text is empty — its length
is 0, not 1048576 as the claim requires for every oversized body. -/
theorem C4_counterexample :
    c4Body.length = 1 * 1048576 + 1 ∧ 0 < 1 ∧
      (webhookProcess 3 1 (fun _ => .response 200 c4Body true)).outcome =
        .ok ⟨[]⟩ ∧
      ([] : List Char).length ≠ 1 * 1048576 := by
  refine ⟨?_, by decide, ?_, by decide⟩
  · rw [c4Body, List.length_append, c4_len]
    rw [show (['x'] : List Char).length = 1 from rfl]
  · rw [webhookProcess_2xx 1 3 _ 200 c4Body rfl (by decide) (by decide)]
    have htr : List.take (1 * 1024 * 1024) c4Body = c4Header ++ c4Pad := by
      have h1 : (1 : Nat) * 1024 * 1024 = 1048576 := by norm_num
      rw [h1]
      exact c4_take
    rw [htr]
    have hu : unmarshalSlack (c4Header ++ c4Pad) = some [] :=
      unmarshal_c4pad 1048565
    rw [hu]

/-- Claim C4 as amended: for a 2xx response whose body has size
M·1048576 + k bytes (k > 0), Process succeeds, and the returned text is
the M·1048576-byte truncated prefix of the body — so has exactly that
length — whenever that truncated prefix does not unmarshal as
`{text: string}` JSON (when it does, the text is the unmarshalled field
instead, as the counterexample shows). -/
theorem C4_truncation_amended (M R k : Nat) (att : Nat → HttpAttempt)
    (body : List Char) (s : Nat)
    (h0 : att 0 = .response s body true) (h2 : 200 ≤ s) (h3 : s < 300)
    (hlen : body.length = M * 1048576 + k) (hk : 0 < k)
    (hu : unmarshalSlack (body.take (M * 1024 * 1024)) = none) :
    (webhookProcess R M att).outcome = .ok ⟨body.take (M * 1024 * 1024)⟩ ∧
      (body.take (M * 1024 * 1024)).length = M * 1048576 := by
  constructor
  · rw [webhookProcess_2xx M R att s body h0 h2 h3, hu]
  · rw [List.length_take]
    have hM : M * 1024 * 1024 = M * 1048576 := by
      rw [Nat.mul_assoc]
    omega

/-- Witness for C4 amended: a 1-byte body at M = 0 (cap 0, truncation `[]`,
which does not unmarshal), k = 1. -/
theorem C4_truncation_amended_witness :
    (webhookProcess 0 0 (fun _ => .response 200 ['x'] true)).outcome =
        .ok ⟨(['x'] : List Char).take (0 * 1024 * 1024)⟩ ∧
      ((['x'] : List Char).take (0 * 1024 * 1024)).length = 0 * 1048576 :=
  C4_truncation_amended 0 0 1 _ ['x'] 200 rfl (by decide) (by decide)
    (by decide) (by decide) (by decide)

end NtfySlack
